import Mathlib

/-!
Verification development for the restaurant ordering application's
inventory-consistency engine.

The embedding follows the repository's sources:

* the SQL schema with its trigger functions
  (`check_menu_item_availability`, `update_menu_item_availability`,
  `deduct_inventory_on_order_completion`, and the triggers on
  `inventory_items`, `menu_item_inventory` and `orders`);
* the order-creation API handler (`POST` in `app/api/orders/route.ts`),
  embedded here as `createOrder`;
* the admin pages' mutation functions (`updateOrderStatus` from
  `app/admin/orders/page.tsx`, and `addItem` / `updateItem` / `deleteItem`
  from the admin inventory page).

All `DECIMAL(10, 2)` columns (`quantity`, `min_stock`, `quantity_required`,
`price`, `total`) are modelled as `Int` values denominated in hundredths
(the exact value set of `DECIMAL(10, 2)`), so arithmetic is exact and
decidable.  `INTEGER` columns (`order_items.quantity`,
`preparation_time`) are plain `Int`.  `UUID` keys are modelled as `Nat`.
-/

namespace RestaurantApp

/-- Row of `menu_items` (fields relevant to the engine). -/
structure MenuItem where
  id : Nat
  name : String
  price : Int
  is_available : Bool
deriving DecidableEq

/-- Row of `inventory_items`. -/
structure InventoryItem where
  id : Nat
  name : String
  quantity : Int
  unit : String
  min_stock : Int
deriving DecidableEq

/-- Order status enum: `CHECK (status IN ('pending','approved','completed','declined'))`. -/
inductive OrderStatus where
  | pending
  | approved
  | completed
  | declined
deriving DecidableEq

/-- Row of `orders` (fields relevant to the engine). -/
structure Order where
  id : Nat
  customer_name : String
  customer_email : Option String
  phone_number : String
  status : OrderStatus
  total : Int
  preparation_time : Option Int
deriving DecidableEq

/-- Row of `order_items`. -/
structure OrderItem where
  id : Nat
  order_id : Nat
  menu_item_id : Nat
  quantity : Int
  price : Int
deriving DecidableEq

/-- Row of `menu_item_inventory` (a recipe requirement). -/
structure RecipeRequirement where
  id : Nat
  menu_item_id : Nat
  inventory_item_id : Nat
  quantity_required : Int
deriving DecidableEq

/-- The five relations of the persistent store. -/
structure DB where
  menuItems : List MenuItem
  inventoryItems : List InventoryItem
  orders : List Order
  orderItems : List OrderItem
  menuItemInventory : List RecipeRequirement
deriving DecidableEq

/-- `SELECT quantity INTO current_quantity FROM inventory_items WHERE id = ...`:
`none` models the SQL `NULL` result when the row is missing. -/
def lookupQuantity (inv : List InventoryItem) (iid : Nat) : Option Int :=
  (inv.find? (fun it => it.id == iid)).map (·.quantity)

/-- The requirement loop of `check_menu_item_availability`: walks the
requirements, returning `false` on the first one whose inventory row is
missing (`current_quantity IS NULL`) or has
`current_quantity < quantity_required` (early `EXIT`). -/
def checkReqs (inv : List InventoryItem) : List RecipeRequirement → Bool
  | [] => true
  | r :: rs =>
    match lookupQuantity inv r.inventory_item_id with
    | none => false
    | some q => if q < r.quantity_required then false else checkReqs inv rs

/-- SQL function `check_menu_item_availability(menu_item_uuid)`: checks all
`menu_item_inventory` rows referencing the menu item against current
inventory. -/
def check_menu_item_availability (db : DB) (mid : Nat) : Bool :=
  checkReqs db.inventoryItems
    (db.menuItemInventory.filter (fun r => r.menu_item_id == mid))

/-- SQL function `update_menu_item_availability()`: for every menu item that
has at least one `menu_item_inventory` row (the `IF EXISTS` guard), write
`is_available := check_menu_item_availability(id)`.  The check reads only
`menu_item_inventory` and `inventory_items`, which the loop never modifies,
so every iteration sees the same data — a single `map` over the snapshot. -/
def update_menu_item_availability (db : DB) : DB :=
  { db with
    menuItems := db.menuItems.map (fun m =>
      if db.menuItemInventory.any (fun r => r.menu_item_id == m.id) then
        { m with is_available := check_menu_item_availability db m.id }
      else m) }

/-- `UPDATE inventory_items SET quantity = quantity - amount WHERE id = iid`. -/
def invDecrement (db : DB) (iid : Nat) (amount : Int) : DB :=
  { db with
    inventoryItems := db.inventoryItems.map (fun it =>
      if it.id == iid then { it with quantity := it.quantity - amount } else it) }

/-- `UPDATE inventory_items SET quantity = 0 WHERE id = iid AND quantity < 0`. -/
def invClampZero (db : DB) (iid : Nat) : DB :=
  { db with
    inventoryItems := db.inventoryItems.map (fun it =>
      if it.id == iid && decide (it.quantity < 0) then { it with quantity := 0 } else it) }

/-- One inner-loop iteration of `deduct_inventory_on_order_completion`:
decrement, then clamp the touched row at zero. -/
def deductStep (db : DB) (iid : Nat) (amount : Int) : DB :=
  invClampZero (invDecrement db iid amount) iid

/-- Inner loop of the deduction trigger: for every requirement of the order
item's menu item, deduct `order_item.quantity * quantity_required`. -/
def deductOrderItem (db : DB) (oi : OrderItem) : DB :=
  (db.menuItemInventory.filter (fun r => r.menu_item_id == oi.menu_item_id)).foldl
    (fun d r => deductStep d r.inventory_item_id (oi.quantity * r.quantity_required)) db

/-- The deduction pass of `deduct_inventory_on_order_completion` for one
order: loop over the order's `order_items` rows. -/
def deduct_inventory_on_order_completion (db : DB) (oid : Nat) : DB :=
  (db.orderItems.filter (fun oi => oi.order_id == oid)).foldl deductOrderItem db

/-- The row update performed by the admin `updateOrderStatus`: sets `status`,
and sets `preparation_time` only when the new status is `approved` and a
(truthy, i.e. nonzero) preparation time was given. -/
def applyStatusUpdate (newStatus : OrderStatus) (prep : Option Int) (o : Order) : Order :=
  { o with
    status := newStatus
    preparation_time :=
      match prep with
      | some p => if newStatus = .approved ∧ p ≠ 0 then some p else o.preparation_time
      | none => o.preparation_time }

/-- `UPDATE orders SET ... WHERE id = oid` together with the `BEFORE UPDATE`
trigger `deduct_inventory_on_order_completion`: when the updated row's new
status is `completed` and its old status was not, the deduction pass runs
over the old state and then `update_menu_item_availability()` is performed;
afterwards the row itself is written. -/
def setOrderStatus (db : DB) (oid : Nat) (newStatus : OrderStatus) (prep : Option Int) : DB :=
  match db.orders.find? (fun o => o.id == oid) with
  | none => db
  | some old =>
    let db1 :=
      if newStatus = .completed ∧ old.status ≠ .completed then
        update_menu_item_availability (deduct_inventory_on_order_completion db oid)
      else db
    { db1 with
      orders := db1.orders.map (fun o =>
        if o.id == oid then applyStatusUpdate newStatus prep o else o) }

/-- A line of the order-creation request body (`items[]` element). -/
structure OrderLine where
  id : Nat
  name : String
  quantity : Int
  price : Int
deriving DecidableEq

/-- The order-creation request body. -/
structure OrderRequest where
  phone_number : String
  customer_name : Option String
  customer_email : Option String
  items : List OrderLine
  total : Int
deriving DecidableEq

/-- Errors surfaced by the `POST /api/orders` handler. -/
inductive CreateOrderError where
  | emptyCart
  | itemNotFound (id : Nat)
  | itemUnavailable (name : String)
  | inventoryLookupFailed
  | insufficientInventory (name : String) (needed : Int) (unit : String) (avail : Int)
  | storageError
deriving DecidableEq

/-- Inner validation loop of the handler over the menu item's inventory
mappings: looks up each inventory row (a lookup error is a 500), computes
`required = quantity_required * item.quantity` and rejects when
`inventory.quantity < required`, reporting name, required amount, unit and
available amount. -/
def checkMappings (db : DB) (line : OrderLine) :
    List RecipeRequirement → Except CreateOrderError Unit
  | [] => .ok ()
  | r :: rs =>
    match db.inventoryItems.find? (fun it => it.id == r.inventory_item_id) with
    | none => .error .inventoryLookupFailed
    | some inv =>
      if inv.quantity < r.quantity_required * line.quantity then
        .error (.insufficientInventory inv.name (r.quantity_required * line.quantity)
          inv.unit inv.quantity)
      else checkMappings db line rs

/-- Per-line validation of the handler: the menu item must exist
(`.single()` on `menu_items`), must be `is_available`, and every inventory
mapping must have sufficient stock. -/
def validateLine (db : DB) (line : OrderLine) : Except CreateOrderError Unit :=
  match db.menuItems.find? (fun m => m.id == line.id) with
  | none => .error (.itemNotFound line.id)
  | some m =>
    if m.is_available then
      checkMappings db line
        (db.menuItemInventory.filter (fun r => r.menu_item_id == line.id))
    else .error (.itemUnavailable m.name)

/-- The handler's validation loop over all request lines (first failure
returns). -/
def validateItems (db : DB) : List OrderLine → Except CreateOrderError Unit
  | [] => .ok ()
  | l :: ls =>
    match validateLine db l with
    | .error e => .error e
    | .ok _ => validateItems db ls

/-- Whether the handler's menu-item lookup for a line succeeds and finds an
available item (the combination of its first two checks). -/
def lineItemAvailable (db : DB) (line : OrderLine) : Bool :=
  match db.menuItems.find? (fun m => m.id == line.id) with
  | some m => m.is_available
  | none => false

/-- The `orders` row inserted by the handler on the success path. -/
def mkNewOrder (req : OrderRequest) (newOrderId : Nat) : Order :=
  { id := newOrderId
    customer_name := req.customer_name.getD "Guest"
    customer_email := req.customer_email
    phone_number := req.phone_number
    status := .pending
    total := req.total
    preparation_time := none }

/-- The `order_items` rows inserted by the handler: note `price := l.price`,
taken from the request line. -/
def mkNewOrderItems (req : OrderRequest) (newOrderId : Nat) : List OrderItem :=
  req.items.map (fun l =>
    { id := 0
      order_id := newOrderId
      menu_item_id := l.id
      quantity := l.quantity
      price := l.price })

/-- The `POST` handler of `app/api/orders/route.ts`.  Rejects an empty cart,
validates every line, then inserts the `orders` row and — in a second,
separate insert — the `order_items` rows.  `newOrderId` models the
generated UUID; `itemsInsertFails` models the possibility that the second
insert errors, in which case the handler returns a 500 *without removing
the already-inserted order row*. -/
def createOrder (db : DB) (req : OrderRequest) (newOrderId : Nat)
    (itemsInsertFails : Bool) : Except CreateOrderError Nat × DB :=
  if req.items.isEmpty then (.error .emptyCart, db)
  else
    match validateItems db req.items with
    | .error e => (.error e, db)
    | .ok _ =>
      let db1 := { db with orders := db.orders ++ [mkNewOrder req newOrderId] }
      if itemsInsertFails then (.error .storageError, db1)
      else (.ok newOrderId,
        { db1 with orderItems := db1.orderItems ++ mkNewOrderItems req newOrderId })

/-- Admin inventory page `updateItem` restricted to the quantity field (the
page's edit control sends `{ quantity }`), together with the schema's
`AFTER UPDATE` trigger on `inventory_items`, which re-runs the availability
sweep when the stored quantity actually changed
(`WHEN (OLD.quantity IS DISTINCT FROM NEW.quantity)`). -/
def updateItem (db : DB) (iid : Nat) (q : Int) : DB :=
  let db' := { db with
    inventoryItems := db.inventoryItems.map (fun it =>
      if it.id == iid then { it with quantity := q } else it) }
  if db.inventoryItems.any (fun it => it.id == iid && it.quantity != q) then
    update_menu_item_availability db'
  else db'

/-- Admin inventory page `addItem` together with the schema's `AFTER INSERT`
trigger on `inventory_items` (always re-runs the availability sweep). -/
def addItem (db : DB) (it : InventoryItem) : DB :=
  update_menu_item_availability
    { db with inventoryItems := db.inventoryItems ++ [it] }

/-- Admin inventory page `deleteItem`: deletes the inventory row; the
`ON DELETE CASCADE` on `menu_item_inventory` removes dependent requirement
rows, and each cascaded delete fires the mapping-change trigger (so the
availability sweep runs iff some requirement row referenced the item). -/
def deleteItem (db : DB) (iid : Nat) : DB :=
  let db' := { db with
    inventoryItems := db.inventoryItems.filter (fun it => !(it.id == iid))
    menuItemInventory := db.menuItemInventory.filter
      (fun r => !(r.inventory_item_id == iid)) }
  if db.menuItemInventory.any (fun r => r.inventory_item_id == iid) then
    update_menu_item_availability db'
  else db'

/-- `INSERT` on `menu_item_inventory` plus its `AFTER INSERT OR UPDATE OR
DELETE` trigger (always fires for an insert). -/
def insertRequirement (db : DB) (r : RecipeRequirement) : DB :=
  update_menu_item_availability
    { db with menuItemInventory := db.menuItemInventory ++ [r] }

/-- `UPDATE` of a `menu_item_inventory` row by id plus the mapping trigger
(fires iff a row matched). -/
def updateRequirement (db : DB) (rid : Nat) (r : RecipeRequirement) : DB :=
  let db' := { db with
    menuItemInventory := db.menuItemInventory.map (fun x => if x.id == rid then r else x) }
  if db.menuItemInventory.any (fun x => x.id == rid) then
    update_menu_item_availability db'
  else db'

/-- `DELETE` of a `menu_item_inventory` row by id plus the mapping trigger
(fires iff a row matched). -/
def deleteRequirement (db : DB) (rid : Nat) : DB :=
  let db' := { db with
    menuItemInventory := db.menuItemInventory.filter (fun x => !(x.id == rid)) }
  if db.menuItemInventory.any (fun x => x.id == rid) then
    update_menu_item_availability db'
  else db'

/-- Whether the `orders` update `setOrderStatus db oid completed _` fires the
deduction trigger: the targeted row exists and is not already completed. -/
def orderCompletionFires (db : DB) (oid : Nat) : Bool :=
  match db.orders.find? (fun o => o.id == oid) with
  | some o => o.status != .completed
  | none => false

/-- The total deduction the completion of order `oid` requests from
inventory item `iid`: the sum, over the order's `order_items` and each of
their menu item's recipe requirements touching `iid`, of
`order_item.quantity * quantity_required`. -/
def orderDemand (db : DB) (oid iid : Nat) : Int :=
  ((db.orderItems.filter (fun oi => oi.order_id == oid)).map (fun oi =>
    ((db.menuItemInventory.filter (fun r =>
        r.menu_item_id == oi.menu_item_id && r.inventory_item_id == iid)).map
      (fun r => oi.quantity * r.quantity_required)).sum)).sum

/-- The deduction events (inventory item id, amount) generated by the
deduction trigger's nested loops: for each order item, one event per recipe
requirement of its menu item. -/
def orderEvents (M : List RecipeRequirement) (ois : List OrderItem) : List (Nat × Int) :=
  ois.flatMap (fun oi =>
    (M.filter (fun r => r.menu_item_id == oi.menu_item_id)).map
      (fun r => (r.inventory_item_id, oi.quantity * r.quantity_required)))

/-- Total amount a list of deduction events requests from inventory item
`i`. -/
def demandOn (evts : List (Nat × Int)) (i : Nat) : Int :=
  (evts.map (fun e => if e.1 == i then e.2 else 0)).sum

/-- The availability-cache invariant: every menu item with at least one
recipe requirement caches exactly what the availability evaluator computes
from the current inventory and recipe map. -/
def availInvariant (db : DB) : Prop :=
  ∀ m ∈ db.menuItems,
    db.menuItemInventory.any (fun r => r.menu_item_id == m.id) = true →
      m.is_available = check_menu_item_availability db m.id

/-- The mutations after which the spec requires the availability cache to be
consistent. -/
inductive Mutation where
  | invQuantityEdit (iid : Nat) (q : Int)
  | invInsert (it : InventoryItem)
  | reqInsert (r : RecipeRequirement)
  | reqUpdate (rid : Nat) (r : RecipeRequirement)
  | reqDelete (rid : Nat)
  | completeOrder (oid : Nat) (prep : Option Int)
deriving DecidableEq

/-- Interpretation of a `Mutation` on the store, via the operations above. -/
def applyMutation (db : DB) : Mutation → DB
  | .invQuantityEdit iid q => updateItem db iid q
  | .invInsert it => addItem db it
  | .reqInsert r => insertRequirement db r
  | .reqUpdate rid r => updateRequirement db rid r
  | .reqDelete rid => deleteRequirement db rid
  | .completeOrder oid prep => setOrderStatus db oid .completed prep

/-- Whether the given mutation actually fires an availability-recomputation
trigger (a quantity edit must change the stored value; a requirement
update/delete must match a row; a completion must hit a not-yet-completed
order). -/
def triggersRecompute (db : DB) : Mutation → Bool
  | .invQuantityEdit iid q => db.inventoryItems.any (fun it => it.id == iid && it.quantity != q)
  | .invInsert _ => true
  | .reqInsert _ => true
  | .reqUpdate rid _ => db.menuItemInventory.any (fun x => x.id == rid)
  | .reqDelete rid => db.menuItemInventory.any (fun x => x.id == rid)
  | .completeOrder oid _ => orderCompletionFires db oid

/-- States reachable from a store whose inventory quantities are all
non-negative, by order creations, status transitions (with their deduction
passes), and admin inventory operations whose written quantities are
non-negative. -/
inductive Reachable : DB → Prop where
  | base (db : DB) (h : ∀ it ∈ db.inventoryItems, 0 ≤ it.quantity) : Reachable db
  | createOrder {db : DB} (h : Reachable db) (req : OrderRequest) (nid : Nat)
      (flag : Bool) : Reachable (createOrder db req nid flag).2
  | setStatus {db : DB} (h : Reachable db) (oid : Nat) (st : OrderStatus)
      (prep : Option Int) : Reachable (setOrderStatus db oid st prep)
  | invInsert {db : DB} (h : Reachable db) (it : InventoryItem)
      (hq : 0 ≤ it.quantity) : Reachable (addItem db it)
  | invUpdate {db : DB} (h : Reachable db) (iid : Nat) (q : Int)
      (hq : 0 ≤ q) : Reachable (updateItem db iid q)
  | invDelete {db : DB} (h : Reachable db) (iid : Nat) : Reachable (deleteItem db iid)

/-! ### Concrete stores and requests used to instantiate the theorems
(quantities in hundredths: `50` is `0.50`, prices in cents). -/

/-- Scenario B data: `Tomatoes {quantity: 0.5}`, a menu item requiring
`0.3` per unit, and an approved order for 2 units of it. -/
def dbScenB : DB :=
  { menuItems := [{ id := 7, name := "Margherita Pizza", price := 1699, is_available := true }]
    inventoryItems := [{ id := 1, name := "Tomatoes", quantity := 50, unit := "lbs", min_stock := 10 }]
    orders := [{ id := 3, customer_name := "Guest", customer_email := none,
                 phone_number := "5550100", status := .approved, total := 3398,
                 preparation_time := some 15 }]
    orderItems := [{ id := 1, order_id := 3, menu_item_id := 7, quantity := 2, price := 1699 }]
    menuItemInventory := [{ id := 1, menu_item_id := 7, inventory_item_id := 1, quantity_required := 30 }] }

/-- A store with a single stocked inventory row, for exercising admin
edits. -/
def dbAdminEdit : DB :=
  { menuItems := []
    inventoryItems := [{ id := 1, name := "Tomatoes", quantity := 500, unit := "lbs", min_stock := 100 }]
    orders := []
    orderItems := []
    menuItemInventory := [] }

/-- A store whose only menu item has a stale cached flag and one recipe
requirement, for exercising the availability sweep. -/
def dbSweep : DB :=
  { menuItems := [{ id := 1, name := "Margherita Pizza", price := 1699, is_available := false }]
    inventoryItems := []
    orders := []
    orderItems := []
    menuItemInventory := [{ id := 1, menu_item_id := 1, inventory_item_id := 5, quantity_required := 10 }] }

/-- The inventory row whose insertion satisfies `dbSweep`'s requirement. -/
def itSweep : InventoryItem :=
  { id := 5, name := "Fresh Basil", quantity := 100, unit := "lbs", min_stock := 10 }

/-- A store whose only menu item has no recipe requirements but a manually
cleared `is_available` flag. -/
def dbNoReq : DB :=
  { menuItems := [{ id := 1, name := "Fresh Lemonade", price := 499, is_available := false }]
    inventoryItems := []
    orders := []
    orderItems := []
    menuItemInventory := [] }

/-- Scenario A data: `Tomatoes {quantity: 0.5, unit: lbs}` and a recipe
requirement of `0.5` per Margherita Pizza. -/
def dbScenA : DB :=
  { menuItems := [{ id := 1, name := "Margherita Pizza", price := 1699, is_available := true }]
    inventoryItems := [{ id := 1, name := "Tomatoes", quantity := 50, unit := "lbs", min_stock := 10 }]
    orders := []
    orderItems := []
    menuItemInventory := [{ id := 1, menu_item_id := 1, inventory_item_id := 1, quantity_required := 50 }] }

/-- Scenario A request for one Margherita Pizza. -/
def reqScenA1 : OrderRequest :=
  { phone_number := "5550100", customer_name := some "Ana", customer_email := none
    items := [{ id := 1, name := "Margherita Pizza", quantity := 1, price := 1699 }]
    total := 1699 }

/-- Scenario A request for two Margherita Pizzas. -/
def reqScenA2 : OrderRequest :=
  { phone_number := "5550100", customer_name := some "Ana", customer_email := none
    items := [{ id := 1, name := "Margherita Pizza", quantity := 2, price := 1699 }]
    total := 3398 }

/-- A store with a single pending order, for exercising status
transitions. -/
def dbPending : DB :=
  { menuItems := []
    inventoryItems := []
    orders := [{ id := 1, customer_name := "Guest", customer_email := none,
                 phone_number := "5550100", status := .pending, total := 1699,
                 preparation_time := none }]
    orderItems := []
    menuItemInventory := [] }

/-- A store whose menu item costs 10.00 and has no requirements. -/
def dbPrice : DB :=
  { menuItems := [{ id := 1, name := "Margherita Pizza", price := 1000, is_available := true }]
    inventoryItems := []
    orders := []
    orderItems := []
    menuItemInventory := [] }

/-- A request whose single line carries price 7.00 although the catalog
price is 10.00. -/
def reqPrice : OrderRequest :=
  { phone_number := "5550100", customer_name := none, customer_email := none
    items := [{ id := 1, name := "Margherita Pizza", quantity := 1, price := 700 }]
    total := 700 }

/-- Two menu items that both consume inventory item 1 (stock 1.00), each
needing 0.60 per unit. -/
def dbShared : DB :=
  { menuItems := [{ id := 1, name := "Pizza A", price := 1000, is_available := true },
                  { id := 2, name := "Pizza B", price := 1000, is_available := true }]
    inventoryItems := [{ id := 1, name := "Mozzarella Cheese", quantity := 100, unit := "lbs", min_stock := 10 }]
    orders := []
    orderItems := []
    menuItemInventory := [{ id := 1, menu_item_id := 1, inventory_item_id := 1, quantity_required := 60 },
                          { id := 2, menu_item_id := 2, inventory_item_id := 1, quantity_required := 60 }] }

/-- A request with one line of each of `dbShared`'s menu items: combined
demand 1.20 exceeds the 1.00 stock, each line alone fits. -/
def reqShared : OrderRequest :=
  { phone_number := "5550100", customer_name := none, customer_email := none
    items := [{ id := 1, name := "Pizza A", quantity := 1, price := 1000 },
              { id := 2, name := "Pizza B", quantity := 1, price := 1000 }]
    total := 2000 }

/-! ### General list and fold helpers -/

lemma map_eq_self_of_mem {α : Type} {l : List α} {f : α → α}
    (h : ∀ a ∈ l, f a = a) : l.map f = l :=
  (List.map_congr_left h).trans (List.map_id l)

lemma foldl_preserve {α β : Type} (f : DB → α → DB) (P : DB → β)
    (hf : ∀ d a, P (f d a) = P d) :
    ∀ (l : List α) (db : DB), P (l.foldl f db) = P db := by
  intro l
  induction l with
  | nil => intro db; rfl
  | cons a t ih => intro db; rw [List.foldl_cons, ih, hf]

lemma foldl_invariant {α : Type} (f : DB → α → DB) (I : DB → Prop)
    (hf : ∀ d a, I d → I (f d a)) :
    ∀ (l : List α) (db : DB), I db → I (l.foldl f db) := by
  intro l
  induction l with
  | nil => intro db h; exact h
  | cons a t ih => intro db h; rw [List.foldl_cons]; exact ih _ (hf db a h)

/-! ### The deduction pass: pointwise characterization -/

lemma deductStep_menuItems (db : DB) (i : Nat) (a : Int) :
    (deductStep db i a).menuItems = db.menuItems := rfl

lemma deductStep_orders (db : DB) (i : Nat) (a : Int) :
    (deductStep db i a).orders = db.orders := rfl

lemma deductStep_orderItems (db : DB) (i : Nat) (a : Int) :
    (deductStep db i a).orderItems = db.orderItems := rfl

lemma deductStep_menuItemInventory (db : DB) (i : Nat) (a : Int) :
    (deductStep db i a).menuItemInventory = db.menuItemInventory := rfl

/-- One decrement-then-clamp step acts on the inventory list as a pointwise
`max 0 (quantity - amount)` on the matching rows. -/
lemma deductStep_inventoryItems (db : DB) (i : Nat) (a : Int) :
    (deductStep db i a).inventoryItems =
      db.inventoryItems.map (fun it =>
        if it.id == i then { it with quantity := max 0 (it.quantity - a) } else it) := by
  unfold deductStep invClampZero invDecrement
  simp only [List.map_map]
  refine List.map_congr_left ?_
  intro it _
  by_cases h : it.id = i
  · by_cases hq : it.quantity - a < 0
    · simp [Function.comp, h, hq, max_eq_left hq.le]
    · simp [Function.comp, h, hq, max_eq_right (not_lt.mp hq)]
  · simp [Function.comp, h]

lemma deductStep_nonneg {db : DB} (i : Nat) (a : Int)
    (h : ∀ it ∈ db.inventoryItems, 0 ≤ it.quantity) :
    ∀ it ∈ (deductStep db i a).inventoryItems, 0 ≤ it.quantity := by
  intro it hit
  rw [deductStep_inventoryItems] at hit
  rcases List.mem_map.mp hit with ⟨it0, h0, rfl⟩
  by_cases hid : it0.id = i
  · simp only [hid, beq_self_eq_true, if_pos]
    exact le_max_left 0 _
  · have hb : (it0.id == i) = false := by simpa using hid
    simp only [hb, Bool.false_eq_true, if_neg, not_false_eq_true]
    exact h it0 h0

lemma demandOn_nil (i : Nat) : demandOn [] i = 0 := rfl

lemma demandOn_cons (e : Nat × Int) (t : List (Nat × Int)) (i : Nat) :
    demandOn (e :: t) i = (if e.1 == i then e.2 else 0) + demandOn t i := by
  simp [demandOn]

lemma demandOn_append (l₁ l₂ : List (Nat × Int)) (i : Nat) :
    demandOn (l₁ ++ l₂) i = demandOn l₁ i + demandOn l₂ i := by
  simp [demandOn]

lemma demandOn_nonneg {evts : List (Nat × Int)} (i : Nat)
    (h : ∀ e ∈ evts, 0 ≤ e.2) : 0 ≤ demandOn evts i := by
  refine List.sum_nonneg ?_
  intro x hx
  rcases List.mem_map.mp hx with ⟨e, he, rfl⟩
  by_cases hm : (e.1 == i) = true
  · simpa [hm] using h e he
  · simp [hm]

lemma max_zero_sub_sub (q a s : Int) (_ha : 0 ≤ a) (hs : 0 ≤ s) :
    max 0 (max 0 (q - a) - s) = max 0 (q - a - s) := by
  rcases le_total 0 (q - a) with h | h
  · rw [max_eq_right h]
  · rw [max_eq_left h]
    have h1 : (0 : Int) - s ≤ 0 := by omega
    have h2 : q - a - s ≤ 0 := by omega
    rw [max_eq_left h1, max_eq_left h2]

/-- Folding decrement-then-clamp steps over an event list with non-negative
amounts, starting from non-negative stock, yields exactly
`max 0 (initial - total demand)` on every inventory row. -/
lemma foldl_deductStep_inventory :
    ∀ (evts : List (Nat × Int)) (db : DB),
      (∀ e ∈ evts, 0 ≤ e.2) →
      (∀ it ∈ db.inventoryItems, 0 ≤ it.quantity) →
      (evts.foldl (fun d e => deductStep d e.1 e.2) db).inventoryItems =
        db.inventoryItems.map (fun it =>
          { it with quantity := max 0 (it.quantity - demandOn evts it.id) }) := by
  intro evts
  induction evts with
  | nil =>
    intro db _ hinv
    simp only [List.foldl_nil]
    symm
    refine map_eq_self_of_mem ?_
    intro it hit
    have h0 : max 0 (it.quantity - demandOn [] it.id) = it.quantity := by
      rw [demandOn_nil, sub_zero]
      exact max_eq_right (hinv it hit)
    rw [h0]
  | cons e t ih =>
    intro db hev hinv
    rw [List.foldl_cons,
      ih (deductStep db e.1 e.2) (fun x hx => hev x (List.mem_cons_of_mem e hx))
        (deductStep_nonneg e.1 e.2 hinv),
      deductStep_inventoryItems, List.map_map]
    refine List.map_congr_left ?_
    intro it hit
    have he2 : 0 ≤ e.2 := hev e (List.mem_cons_self e t)
    have hsum : 0 ≤ demandOn t it.id :=
      demandOn_nonneg it.id (fun x hx => hev x (List.mem_cons_of_mem e hx))
    by_cases h : it.id = e.1
    · have hdem : demandOn (e :: t) it.id = e.2 + demandOn t it.id := by
        rw [demandOn_cons]
        simp [h]
      have hmax := max_zero_sub_sub it.quantity e.2 (demandOn t it.id) he2 hsum
      rw [sub_sub] at hmax
      simp only [Function.comp_apply, h, beq_self_eq_true, if_pos]
      rw [h] at hdem hmax
      rw [hdem, hmax]
    · have hb : (it.id == e.1) = false := by simpa using h
      have hb' : (e.1 == it.id) = false := by simpa using fun hEq => h hEq.symm
      have hdem : demandOn (e :: t) it.id = demandOn t it.id := by
        rw [demandOn_cons, hb']
        simp
      simp only [Function.comp_apply, hb, Bool.false_eq_true, if_neg,
        not_false_eq_true, hdem]

lemma deductOrderItem_eq_foldl (db : DB) (oi : OrderItem) :
    deductOrderItem db oi =
      ((db.menuItemInventory.filter (fun r => r.menu_item_id == oi.menu_item_id)).map
        (fun r => (r.inventory_item_id, oi.quantity * r.quantity_required))).foldl
        (fun d e => deductStep d e.1 e.2) db := by
  rw [deductOrderItem, List.foldl_map]

lemma deductOrderItem_menuItemInventory (db : DB) (oi : OrderItem) :
    (deductOrderItem db oi).menuItemInventory = db.menuItemInventory := by
  rw [deductOrderItem]
  exact foldl_preserve
    (fun d (r : RecipeRequirement) =>
      deductStep d r.inventory_item_id (oi.quantity * r.quantity_required))
    DB.menuItemInventory (fun d r => rfl) _ db

lemma deductOrderItem_orders (db : DB) (oi : OrderItem) :
    (deductOrderItem db oi).orders = db.orders := by
  rw [deductOrderItem]
  exact foldl_preserve
    (fun d (r : RecipeRequirement) =>
      deductStep d r.inventory_item_id (oi.quantity * r.quantity_required))
    DB.orders (fun d r => rfl) _ db

lemma deductOrderItem_orderItems (db : DB) (oi : OrderItem) :
    (deductOrderItem db oi).orderItems = db.orderItems := by
  rw [deductOrderItem]
  exact foldl_preserve
    (fun d (r : RecipeRequirement) =>
      deductStep d r.inventory_item_id (oi.quantity * r.quantity_required))
    DB.orderItems (fun d r => rfl) _ db

lemma deductOrderItem_menuItems (db : DB) (oi : OrderItem) :
    (deductOrderItem db oi).menuItems = db.menuItems := by
  rw [deductOrderItem]
  exact foldl_preserve
    (fun d (r : RecipeRequirement) =>
      deductStep d r.inventory_item_id (oi.quantity * r.quantity_required))
    DB.menuItems (fun d r => rfl) _ db

lemma orderEvents_nil (M : List RecipeRequirement) : orderEvents M [] = [] := rfl

lemma orderEvents_cons (M : List RecipeRequirement) (oi : OrderItem)
    (t : List OrderItem) :
    orderEvents M (oi :: t) =
      (M.filter (fun r => r.menu_item_id == oi.menu_item_id)).map
        (fun r => (r.inventory_item_id, oi.quantity * r.quantity_required)) ++
        orderEvents M t := by
  simp [orderEvents]

/-- The nested loops of the deduction trigger are the fold of decrement-clamp
steps over the flattened event list (the recipe map is never modified during
the pass, so every inner query reads the same rows). -/
lemma foldl_deductOrderItem_eq_events :
    ∀ (ois : List OrderItem) (db : DB),
      ois.foldl deductOrderItem db =
        (orderEvents db.menuItemInventory ois).foldl
          (fun d e => deductStep d e.1 e.2) db := by
  intro ois
  induction ois with
  | nil => intro db; rfl
  | cons oi t ih =>
    intro db
    rw [List.foldl_cons, ih, deductOrderItem_menuItemInventory,
      orderEvents_cons, List.foldl_append, deductOrderItem_eq_foldl]

lemma demandOn_map_pair (iid : Nat) (c : Int) :
    ∀ l : List RecipeRequirement,
      demandOn (l.map (fun r => (r.inventory_item_id, c * r.quantity_required))) iid =
        ((l.filter (fun r => r.inventory_item_id == iid)).map
          (fun r => c * r.quantity_required)).sum := by
  intro l
  induction l with
  | nil => rfl
  | cons r t ih =>
    rw [List.map_cons, demandOn_cons, List.filter_cons]
    by_cases h : r.inventory_item_id = iid
    · simp only [h, beq_self_eq_true, if_pos, ite_true, List.map_cons, List.sum_cons]
      rw [ih]
    · have hb : (r.inventory_item_id == iid) = false := by simpa using h
      simp only [hb, Bool.false_eq_true, if_neg, not_false_eq_true, ite_false]
      rw [ih]
      simp

/-- Demand of the flattened event list on one inventory item equals the
per-order-item nested sum with the fused requirement filter. -/
lemma demandOn_orderEvents (M : List RecipeRequirement) (iid : Nat) :
    ∀ ois : List OrderItem,
      demandOn (orderEvents M ois) iid =
        (ois.map (fun oi =>
          ((M.filter (fun r =>
              r.menu_item_id == oi.menu_item_id && r.inventory_item_id == iid)).map
            (fun r => oi.quantity * r.quantity_required)).sum)).sum := by
  intro ois
  induction ois with
  | nil => rfl
  | cons oi t ih =>
    rw [orderEvents_cons, demandOn_append, ih, List.map_cons, List.sum_cons,
      demandOn_map_pair, List.filter_filter]
    have hcomm : M.filter
        (fun a => a.inventory_item_id == iid && a.menu_item_id == oi.menu_item_id) =
        M.filter (fun r => r.menu_item_id == oi.menu_item_id && r.inventory_item_id == iid) :=
      List.filter_congr (fun a _ => Bool.and_comm _ _)
    rw [hcomm]

/-- Pointwise characterization of the whole deduction pass: with non-negative
stock and non-negative demands, every inventory row ends at
`max 0 (quantity - orderDemand)`. -/
lemma deduct_characterization (db : DB) (oid : Nat)
    (hinv : ∀ it ∈ db.inventoryItems, 0 ≤ it.quantity)
    (hoi : ∀ oi ∈ db.orderItems, oi.order_id = oid → 0 ≤ oi.quantity)
    (hreq : ∀ r ∈ db.menuItemInventory, 0 ≤ r.quantity_required) :
    (deduct_inventory_on_order_completion db oid).inventoryItems =
      db.inventoryItems.map (fun it =>
        { it with quantity := max 0 (it.quantity - orderDemand db oid it.id) }) := by
  have hev : ∀ e ∈ orderEvents db.menuItemInventory
      (db.orderItems.filter (fun oi => oi.order_id == oid)), 0 ≤ e.2 := by
    intro e he
    rcases List.mem_flatMap.mp he with ⟨oi, hoi', he'⟩
    rcases List.mem_map.mp he' with ⟨r, hr, rfl⟩
    have h1 : oi ∈ db.orderItems ∧ (oi.order_id == oid) = true :=
      List.mem_filter.mp hoi'
    have h2 : r ∈ db.menuItemInventory := (List.mem_filter.mp hr).1
    exact mul_nonneg (hoi oi h1.1 (by simpa using h1.2)) (hreq r h2)
  rw [deduct_inventory_on_order_completion, foldl_deductOrderItem_eq_events,
    foldl_deductStep_inventory _ _ hev hinv]
  refine List.map_congr_left ?_
  intro it _
  rw [demandOn_orderEvents]
  rfl

/-! ### Availability sweep and order-status update: structural lemmas -/

lemma update_menu_inventoryItems (db : DB) :
    (update_menu_item_availability db).inventoryItems = db.inventoryItems := rfl

lemma update_menu_menuItemInventory (db : DB) :
    (update_menu_item_availability db).menuItemInventory = db.menuItemInventory := rfl

lemma update_menu_orders (db : DB) :
    (update_menu_item_availability db).orders = db.orders := rfl

lemma update_menu_orderItems (db : DB) :
    (update_menu_item_availability db).orderItems = db.orderItems := rfl

lemma check_congr {db db' : DB} (mid : Nat)
    (h1 : db'.inventoryItems = db.inventoryItems)
    (h2 : db'.menuItemInventory = db.menuItemInventory) :
    check_menu_item_availability db' mid = check_menu_item_availability db mid := by
  rw [check_menu_item_availability, check_menu_item_availability, h1, h2]

/-- Running the availability sweep establishes the cache invariant: the sweep
writes `check_menu_item_availability` into every menu item that has a
requirement, and the check is insensitive to the `menu_items` column it
rewrites. -/
lemma availInvariant_update (db : DB) :
    availInvariant (update_menu_item_availability db) := by
  intro m' hm' hany
  simp only [update_menu_item_availability] at hm' hany ⊢
  rcases List.mem_map.mp hm' with ⟨m, hm, rfl⟩
  by_cases hc : (db.menuItemInventory.any (fun r => r.menu_item_id == m.id)) = true
  · simp only [hc, if_pos]
    exact check_congr m.id rfl rfl
  · simp only [hc, if_neg, Bool.false_eq_true, not_false_eq_true] at hany

lemma deduct_pass_orders (db : DB) (oid : Nat) :
    (deduct_inventory_on_order_completion db oid).orders = db.orders := by
  rw [deduct_inventory_on_order_completion]
  exact foldl_preserve deductOrderItem DB.orders deductOrderItem_orders _ db

lemma deduct_pass_menuItems (db : DB) (oid : Nat) :
    (deduct_inventory_on_order_completion db oid).menuItems = db.menuItems := by
  rw [deduct_inventory_on_order_completion]
  exact foldl_preserve deductOrderItem DB.menuItems deductOrderItem_menuItems _ db

lemma deduct_pass_orderItems (db : DB) (oid : Nat) :
    (deduct_inventory_on_order_completion db oid).orderItems = db.orderItems := by
  rw [deduct_inventory_on_order_completion]
  exact foldl_preserve deductOrderItem DB.orderItems deductOrderItem_orderItems _ db

lemma deduct_pass_menuItemInventory (db : DB) (oid : Nat) :
    (deduct_inventory_on_order_completion db oid).menuItemInventory =
      db.menuItemInventory := by
  rw [deduct_inventory_on_order_completion]
  exact foldl_preserve deductOrderItem DB.menuItemInventory
    deductOrderItem_menuItemInventory _ db

lemma deductOrderItem_nonneg (oi : OrderItem) {db : DB}
    (h : ∀ it ∈ db.inventoryItems, 0 ≤ it.quantity) :
    ∀ it ∈ (deductOrderItem db oi).inventoryItems, 0 ≤ it.quantity := by
  rw [deductOrderItem]
  exact foldl_invariant _ (fun d => ∀ it ∈ d.inventoryItems, 0 ≤ it.quantity)
    (fun d r hd => deductStep_nonneg _ _ hd) _ db h

lemma deduct_pass_nonneg {db : DB} (oid : Nat)
    (h : ∀ it ∈ db.inventoryItems, 0 ≤ it.quantity) :
    ∀ it ∈ (deduct_inventory_on_order_completion db oid).inventoryItems,
      0 ≤ it.quantity := by
  rw [deduct_inventory_on_order_completion]
  exact foldl_invariant _ (fun d => ∀ it ∈ d.inventoryItems, 0 ≤ it.quantity)
    (fun d oi hd => deductOrderItem_nonneg oi hd) _ db h

/-- When the completion trigger fires, `setOrderStatus` is deduction pass,
then availability sweep, then the row write. -/
lemma setOrderStatus_completed_eq (db : DB) (oid : Nat) (prep : Option Int)
    (h : orderCompletionFires db oid = true) :
    setOrderStatus db oid .completed prep =
      { update_menu_item_availability (deduct_inventory_on_order_completion db oid) with
        orders := (update_menu_item_availability
            (deduct_inventory_on_order_completion db oid)).orders.map (fun o =>
          if o.id == oid then applyStatusUpdate .completed prep o else o) } := by
  rw [orderCompletionFires] at h
  rw [setOrderStatus]
  cases hf : db.orders.find? (fun o => o.id == oid) with
  | none => rw [hf] at h; exact absurd h (by simp)
  | some old =>
    rw [hf] at h
    have hst : old.status ≠ .completed := by simpa using h
    simp only [hst, ne_eq, not_false_eq_true, and_true, if_pos, reduceIte]

lemma setOrderStatus_none {db : DB} {oid : Nat} (st : OrderStatus) (prep : Option Int)
    (hf : db.orders.find? (fun o => o.id == oid) = none) :
    setOrderStatus db oid st prep = db := by
  rw [setOrderStatus, hf]

lemma setOrderStatus_found {db : DB} {oid : Nat} (st : OrderStatus) (prep : Option Int)
    {old : Order} (hf : db.orders.find? (fun o => o.id == oid) = some old) :
    setOrderStatus db oid st prep =
      (let db1 := if st = .completed ∧ old.status ≠ .completed
        then update_menu_item_availability (deduct_inventory_on_order_completion db oid)
        else db
      { db1 with orders := db1.orders.map (fun o =>
          if o.id == oid then applyStatusUpdate st prep o else o) }) := by
  rw [setOrderStatus, hf]

lemma setOrderStatus_noTrigger {db : DB} {oid : Nat} (st : OrderStatus) (prep : Option Int)
    {old : Order} (hf : db.orders.find? (fun o => o.id == oid) = some old)
    (hg : ¬(st = .completed ∧ old.status ≠ .completed)) :
    setOrderStatus db oid st prep =
      { db with orders := db.orders.map (fun o =>
          if o.id == oid then applyStatusUpdate st prep o else o) } := by
  rw [setOrderStatus_found st prep hf]
  simp only [hg, if_neg, not_false_eq_true]

lemma setOrderStatus_orders_found {db : DB} {oid : Nat} (st : OrderStatus) (prep : Option Int)
    {old : Order} (hf : db.orders.find? (fun o => o.id == oid) = some old) :
    (setOrderStatus db oid st prep).orders =
      db.orders.map (fun o => if o.id == oid then applyStatusUpdate st prep o else o) := by
  rw [setOrderStatus_found st prep hf]
  by_cases hg : st = .completed ∧ old.status ≠ .completed
  · rw [if_pos hg]
    show List.map _ (update_menu_item_availability
      (deduct_inventory_on_order_completion db oid)).orders = _
    rw [update_menu_orders, deduct_pass_orders]
  · simp only [hg, if_neg, not_false_eq_true]

lemma applyStatusUpdate_id (st : OrderStatus) (prep : Option Int) (o : Order) :
    (applyStatusUpdate st prep o).id = o.id := rfl

lemma applyStatusUpdate_status (st : OrderStatus) (prep : Option Int) (o : Order) :
    (applyStatusUpdate st prep o).status = st := rfl

/-- C1: For every order whose status transitions into `completed` from a
status other than `completed`, the deduction pass sets every inventory
item's quantity to `max 0 (previous - orderDemand)` — the demand summed over
the order's order items and their recipe requirements touching that item —
never leaving a negative quantity, and afterwards the availability
evaluator's values are cached for every menu item with requirements. -/
theorem deduction_on_completion (db : DB) (oid : Nat) (prep : Option Int)
    (hfire : orderCompletionFires db oid = true)
    (hinv : ∀ it ∈ db.inventoryItems, 0 ≤ it.quantity)
    (hoi : ∀ oi ∈ db.orderItems, oi.order_id = oid → 0 ≤ oi.quantity)
    (hreq : ∀ r ∈ db.menuItemInventory, 0 ≤ r.quantity_required) :
    (setOrderStatus db oid .completed prep).inventoryItems =
      db.inventoryItems.map (fun it =>
        { it with quantity := max 0 (it.quantity - orderDemand db oid it.id) }) ∧
    availInvariant (setOrderStatus db oid .completed prep) := by
  rw [setOrderStatus_completed_eq db oid prep hfire]
  constructor
  · show (update_menu_item_availability
      (deduct_inventory_on_order_completion db oid)).inventoryItems = _
    rw [update_menu_inventoryItems]
    exact deduct_characterization db oid hinv hoi hreq
  · exact availInvariant_update (deduct_inventory_on_order_completion db oid)

/-- Witness for C1 at Scenario B: completing the order for 2 units that each
need 0.30 of the 0.50-stocked ingredient. -/
theorem deduction_on_completion_witness :
    (setOrderStatus dbScenB 3 .completed none).inventoryItems =
      dbScenB.inventoryItems.map (fun it =>
        { it with quantity := max 0 (it.quantity - orderDemand dbScenB 3 it.id) }) ∧
    availInvariant (setOrderStatus dbScenB 3 .completed none) :=
  deduction_on_completion dbScenB 3 none (by decide) (by decide)
    (by decide) (by decide)

/-- C3: completing an order twice in a row yields the same inventory state
as completing it once — the second update finds the status already
`completed` and the trigger's guard skips the deduction. -/
theorem complete_idempotent (db : DB) (oid : Nat) (prep : Option Int) :
    (setOrderStatus (setOrderStatus db oid .completed prep) oid
        .completed prep).inventoryItems =
      (setOrderStatus db oid .completed prep).inventoryItems := by
  cases hf : db.orders.find? (fun o => o.id == oid) with
  | none =>
    have h1 : setOrderStatus db oid .completed prep = db :=
      setOrderStatus_none .completed prep hf
    rw [h1, h1]
  | some old =>
    have hid : (old.id == oid) = true := by
      have h0 := List.find?_some hf
      simpa using h0
    have hfind2 : (setOrderStatus db oid .completed prep).orders.find?
        (fun o => o.id == oid) = some (applyStatusUpdate .completed prep old) := by
      rw [setOrderStatus_orders_found .completed prep hf, List.find?_map]
      have hp : ((fun o : Order => o.id == oid) ∘
          (fun o => if o.id == oid then applyStatusUpdate .completed prep o else o)) =
          (fun o : Order => o.id == oid) := by
        funext o
        by_cases h : (o.id == oid) = true
        · simp [Function.comp, h, applyStatusUpdate_id]
        · simp [Function.comp, h]
      rw [hp, hf]
      have hidP : old.id = oid := by simpa using hid
      simp [hidP]
    have hguard : ¬(OrderStatus.completed = OrderStatus.completed ∧
        (applyStatusUpdate .completed prep old).status ≠ OrderStatus.completed) :=
      fun hc => hc.2 (applyStatusUpdate_status .completed prep old)
    rw [setOrderStatus_noTrigger .completed prep hfind2 hguard]

lemma availInvariant_set_orders (db : DB) (l : List Order) :
    availInvariant { db with orders := l } ↔ availInvariant db := Iff.rfl

/-- C4: immediately after a quantity mutation, an inventory insert, a
recipe-requirement insert/update/delete, or a completed deduction pass,
every menu item with at least one recipe requirement caches exactly the
availability evaluator's value for the current store. -/
theorem availability_cache_consistent (db : DB) (op : Mutation)
    (h : triggersRecompute db op = true) :
    availInvariant (applyMutation db op) := by
  cases op with
  | invQuantityEdit iid q =>
    simp only [triggersRecompute] at h
    rw [applyMutation, updateItem]
    simp only [h, if_pos]
    exact availInvariant_update _
  | invInsert it =>
    rw [applyMutation, addItem]
    exact availInvariant_update _
  | reqInsert r =>
    rw [applyMutation, insertRequirement]
    exact availInvariant_update _
  | reqUpdate rid r =>
    simp only [triggersRecompute] at h
    rw [applyMutation, updateRequirement]
    simp only [h, if_pos]
    exact availInvariant_update _
  | reqDelete rid =>
    simp only [triggersRecompute] at h
    rw [applyMutation, deleteRequirement]
    simp only [h, if_pos]
    exact availInvariant_update _
  | completeOrder oid prep =>
    simp only [triggersRecompute] at h
    rw [applyMutation, setOrderStatus_completed_eq db oid prep h]
    exact (availInvariant_set_orders _ _).mpr (availInvariant_update _)

/-- Witness for C4: inserting the inventory row satisfying `dbSweep`'s
requirement leaves the cache consistent. -/
theorem availability_cache_consistent_witness :
    availInvariant (applyMutation dbSweep (.invInsert itSweep)) :=
  availability_cache_consistent dbSweep (.invInsert itSweep) (by decide)

/-! ### Non-negativity of inventory (C2) -/

lemma createOrder_inventoryItems (db : DB) (req : OrderRequest) (nid : Nat)
    (flag : Bool) :
    (createOrder db req nid flag).2.inventoryItems = db.inventoryItems := by
  rw [createOrder]
  cases he : req.items.isEmpty
  · cases hv : validateItems db req.items with
    | error e => simp [he, hv]
    | ok u => cases flag <;> simp [he, hv]
  · simp [he]

lemma setOrderStatus_inventory_cases (db : DB) (oid : Nat) (st : OrderStatus)
    (prep : Option Int) :
    (setOrderStatus db oid st prep).inventoryItems = db.inventoryItems ∨
    (setOrderStatus db oid st prep).inventoryItems =
      (deduct_inventory_on_order_completion db oid).inventoryItems := by
  cases hf : db.orders.find? (fun o => o.id == oid) with
  | none => left; rw [setOrderStatus_none st prep hf]
  | some old =>
    by_cases hg : st = .completed ∧ old.status ≠ .completed
    · right
      rw [setOrderStatus_found st prep hf]
      show (if st = .completed ∧ old.status ≠ .completed then
          update_menu_item_availability (deduct_inventory_on_order_completion db oid)
        else db).inventoryItems = _
      rw [if_pos hg, update_menu_inventoryItems]
    · left
      rw [setOrderStatus_noTrigger st prep hf hg]

lemma updateItem_inventoryItems (db : DB) (iid : Nat) (q : Int) :
    (updateItem db iid q).inventoryItems =
      db.inventoryItems.map (fun it =>
        if it.id == iid then { it with quantity := q } else it) := by
  rw [updateItem]
  split <;> rfl

lemma deleteItem_inventoryItems (db : DB) (iid : Nat) :
    (deleteItem db iid).inventoryItems =
      db.inventoryItems.filter (fun it => !(it.id == iid)) := by
  rw [deleteItem]
  split <;> rfl

/-- C2 (amended): every state reachable by order creations, status
transitions with their deduction passes, and admin inventory operations
that only ever write non-negative quantities, has every inventory quantity
non-negative. -/
theorem quantity_nonneg_invariant (db : DB) (h : Reachable db) :
    ∀ it ∈ db.inventoryItems, 0 ≤ it.quantity := by
  induction h with
  | base db h0 => exact h0
  | @createOrder db' h req nid flag ih =>
    intro it hit
    rw [createOrder_inventoryItems] at hit
    exact ih it hit
  | @setStatus db' h oid st prep ih =>
    rcases setOrderStatus_inventory_cases _ oid st prep with h1 | h1 <;> rw [h1]
    · exact ih
    · exact deduct_pass_nonneg oid ih
  | @invInsert db' h it hq ih =>
    intro x hx
    have he : (addItem db' it).inventoryItems = db'.inventoryItems ++ [it] := rfl
    rw [he] at hx
    rcases List.mem_append.mp hx with h1 | h1
    · exact ih x h1
    · rw [List.mem_singleton.mp h1]; exact hq
  | @invUpdate db' h iid q hq ih =>
    intro x hx
    rw [updateItem_inventoryItems] at hx
    rcases List.mem_map.mp hx with ⟨it0, h0, rfl⟩
    by_cases hid : (it0.id == iid) = true
    · simp only [hid, if_pos]; exact hq
    · simp only [hid, Bool.false_eq_true, if_neg, not_false_eq_true]
      exact ih it0 h0
  | @invDelete db' h iid ih =>
    intro x hx
    rw [deleteItem_inventoryItems] at hx
    exact ih x (List.mem_filter.mp hx).1

/-- Witness for C2 (amended): a non-negative admin edit on a reachable
store keeps every quantity non-negative. -/
theorem quantity_nonneg_invariant_witness :
    ((updateItem dbAdminEdit 1 300).inventoryItems.all
      (fun it => decide (0 ≤ it.quantity))) = true := by
  have h := quantity_nonneg_invariant _
    (Reachable.invUpdate (Reachable.base dbAdminEdit (by decide)) 1 300 (by decide))
  rw [List.all_eq_true]
  intro it hit
  exact decide_eq_true (h it hit)

/-- C2 counterexample: the admin edit path (`updateItem`) writes the
requested quantity unconditionally, so an edit to `-3.00` produces a
negative stored quantity — the unrestricted claim fails. -/
theorem quantity_nonneg_counterexample :
    ∃ it ∈ (updateItem dbAdminEdit 1 (-300)).inventoryItems, it.quantity < 0 := by
  decide

/-! ### The availability evaluator's decision and write-back (C5) -/

lemma checkReqs_iff (inv : List InventoryItem) :
    ∀ l : List RecipeRequirement,
      (checkReqs inv l = true ↔
        ∀ r ∈ l, ∃ q, lookupQuantity inv r.inventory_item_id = some q ∧
          r.quantity_required ≤ q) := by
  intro l
  induction l with
  | nil => simp [checkReqs]
  | cons r t ih =>
    rw [List.forall_mem_cons]
    cases hl : lookupQuantity inv r.inventory_item_id with
    | none =>
      simp only [checkReqs, hl]
      constructor
      · intro h; exact absurd h (by simp)
      · rintro ⟨⟨q, hq, -⟩, -⟩
        exact Option.noConfusion hq
    | some q =>
      simp only [checkReqs, hl]
      by_cases hlt : q < r.quantity_required
      · simp only [hlt, if_pos]
        constructor
        · intro h; exact absurd h (by simp)
        · rintro ⟨⟨q', hq', hle⟩, -⟩
          rw [Option.some_inj.mp hq'] at hlt
          exact absurd hle (not_le.mpr hlt)
      · simp only [hlt, if_neg, not_false_eq_true, ih]
        constructor
        · intro h; exact ⟨⟨q, rfl, not_lt.mp hlt⟩, h⟩
        · exact fun h => h.2

/-- C5 (amended): the evaluator decides a menu item available iff every
requirement (vacuously, if there are none) finds its inventory row with
quantity at least `quantity_required` (a missing row counts as
insufficient); the bulk sweep writes the evaluator's boolean back for
exactly the menu items that have at least one requirement, leaving all
others untouched. -/
theorem availability_evaluator_spec (db : DB) (mid : Nat) :
    (check_menu_item_availability db mid = true ↔
      ∀ r ∈ db.menuItemInventory.filter (fun r => r.menu_item_id == mid),
        ∃ q, lookupQuantity db.inventoryItems r.inventory_item_id = some q ∧
          r.quantity_required ≤ q) ∧
    List.Forall₂ (fun m m' =>
        (db.menuItemInventory.any (fun r => r.menu_item_id == m.id) = true →
          m' = { m with is_available := check_menu_item_availability db m.id }) ∧
        (db.menuItemInventory.any (fun r => r.menu_item_id == m.id) = false →
          m' = m))
      db.menuItems (update_menu_item_availability db).menuItems := by
  constructor
  · rw [check_menu_item_availability]
    exact checkReqs_iff db.inventoryItems _
  · show List.Forall₂ _ db.menuItems (db.menuItems.map _)
    rw [List.forall₂_map_right_iff, List.forall₂_same]
    intro m _
    constructor
    · intro hc; rw [if_pos hc]
    · intro hc
      rw [if_neg]
      rw [hc]
      exact Bool.false_ne_true

/-- Witness for C5 (amended): a menu item with no requirements evaluates to
available. -/
theorem availability_evaluator_spec_witness :
    check_menu_item_availability dbNoReq 1 = true :=
  (availability_evaluator_spec dbNoReq 1).1.mpr (by
    intro r hr
    simp [dbNoReq] at hr)

/-- C5 counterexample: in bulk mode the sweep skips menu items with zero
requirements, so a manually cleared flag on such an item is *not*
overwritten with the evaluator's value — the "writes it back for every menu
item" claim fails. -/
theorem availability_bulk_counterexample :
    ¬ (∀ m ∈ (update_menu_item_availability dbNoReq).menuItems,
        m.is_available = check_menu_item_availability
          (update_menu_item_availability dbNoReq) m.id) := by
  decide


/-! ### The validation gate (C6) -/

lemma checkMappings_cons_none (db : DB) (line : OrderLine)
    (r : RecipeRequirement) (t : List RecipeRequirement)
    (hf : db.inventoryItems.find? (fun it => it.id == r.inventory_item_id) = none) :
    checkMappings db line (r :: t) = .error .inventoryLookupFailed := by
  rw [checkMappings, hf]

lemma checkMappings_cons_some (db : DB) (line : OrderLine)
    (r : RecipeRequirement) (t : List RecipeRequirement) {inv : InventoryItem}
    (hf : db.inventoryItems.find? (fun it => it.id == r.inventory_item_id) = some inv) :
    checkMappings db line (r :: t) =
      if inv.quantity < r.quantity_required * line.quantity then
        .error (.insufficientInventory inv.name (r.quantity_required * line.quantity)
          inv.unit inv.quantity)
      else checkMappings db line t := by
  rw [checkMappings, hf]

lemma checkMappings_error_insufficient (db : DB) (line : OrderLine) :
    ∀ (l : List RecipeRequirement) (n : String) (need : Int) (u : String) (a : Int),
      checkMappings db line l = .error (.insufficientInventory n need u a) →
      ∃ r ∈ l, ∃ inv,
        db.inventoryItems.find? (fun it => it.id == r.inventory_item_id) = some inv ∧
        n = inv.name ∧ u = inv.unit ∧ a = inv.quantity ∧
        need = r.quantity_required * line.quantity ∧ inv.quantity < need := by
  intro l
  induction l with
  | nil => intro n need u a h; exact absurd h (by simp [checkMappings])
  | cons r t ih =>
    intro n need u a h
    cases hf : db.inventoryItems.find? (fun it => it.id == r.inventory_item_id) with
    | none =>
      rw [checkMappings_cons_none db line r t hf] at h
      exact absurd h (by simp)
    | some inv =>
      rw [checkMappings_cons_some db line r t hf] at h
      by_cases hlt : inv.quantity < r.quantity_required * line.quantity
      · rw [if_pos hlt] at h
        simp only [Except.error.injEq, CreateOrderError.insufficientInventory.injEq] at h
        rcases h with ⟨h1, h2, h3, h4⟩
        exact ⟨r, List.mem_cons_self r t, inv, hf, h1.symm, h3.symm, h4.symm,
          h2.symm, h2 ▸ hlt⟩
      · rw [if_neg hlt] at h
        rcases ih n need u a h with ⟨r', hr', rest⟩
        exact ⟨r', List.mem_cons_of_mem _ hr', rest⟩

lemma checkMappings_ok_or_insufficient (db : DB) (line : OrderLine) :
    ∀ l : List RecipeRequirement,
      (∀ r ∈ l, (db.inventoryItems.find?
        (fun it => it.id == r.inventory_item_id)).isSome = true) →
      checkMappings db line l = .ok () ∨
      ∃ n need u a, checkMappings db line l = .error (.insufficientInventory n need u a) := by
  intro l
  induction l with
  | nil => intro _; left; rfl
  | cons r t ih =>
    intro hb
    cases hf : db.inventoryItems.find? (fun it => it.id == r.inventory_item_id) with
    | none =>
      have hs := hb r (List.mem_cons_self r t)
      rw [hf] at hs
      exact absurd hs (by simp)
    | some inv =>
      rw [checkMappings_cons_some db line r t hf]
      by_cases hlt : inv.quantity < r.quantity_required * line.quantity
      · right
        exact ⟨inv.name, r.quantity_required * line.quantity, inv.unit, inv.quantity,
          by rw [if_pos hlt]⟩
      · rw [if_neg hlt]
        exact ih (fun x hx => hb x (List.mem_cons_of_mem _ hx))

lemma checkMappings_insufficient_of_exists (db : DB) (line : OrderLine) :
    ∀ l : List RecipeRequirement,
      (∀ r ∈ l, (db.inventoryItems.find?
        (fun it => it.id == r.inventory_item_id)).isSome = true) →
      (∃ r ∈ l, ∃ inv,
        db.inventoryItems.find? (fun it => it.id == r.inventory_item_id) = some inv ∧
        inv.quantity < r.quantity_required * line.quantity) →
      ∃ n need u a,
        checkMappings db line l = .error (.insufficientInventory n need u a) := by
  intro l
  induction l with
  | nil => rintro _ ⟨r, hr, -⟩; exact absurd hr (by simp)
  | cons r t ih =>
    rintro hb ⟨r', hr', inv', hfind', hlt'⟩
    cases hf : db.inventoryItems.find? (fun it => it.id == r.inventory_item_id) with
    | none =>
      have hs := hb r (List.mem_cons_self r t)
      rw [hf] at hs
      exact absurd hs (by simp)
    | some inv =>
      rw [checkMappings_cons_some db line r t hf]
      by_cases hlt : inv.quantity < r.quantity_required * line.quantity
      · exact ⟨inv.name, r.quantity_required * line.quantity, inv.unit, inv.quantity,
          by rw [if_pos hlt]⟩
      · rw [if_neg hlt]
        rcases List.mem_cons.mp hr' with rfl | hmem
        · rw [hf] at hfind'
          rw [Option.some_inj.mp hfind'] at hlt
          exact absurd hlt' hlt
        · exact ih (fun x hx => hb x (List.mem_cons_of_mem _ hx))
            ⟨r', hmem, inv', hfind', hlt'⟩

lemma validateLine_eq_none (db : DB) (line : OrderLine)
    (hm : db.menuItems.find? (fun m => m.id == line.id) = none) :
    validateLine db line = .error (.itemNotFound line.id) := by
  rw [validateLine, hm]

lemma validateLine_eq_some (db : DB) (line : OrderLine) {m : MenuItem}
    (hm : db.menuItems.find? (fun m => m.id == line.id) = some m) :
    validateLine db line =
      if m.is_available then
        checkMappings db line
          (db.menuItemInventory.filter (fun r => r.menu_item_id == line.id))
      else .error (.itemUnavailable m.name) := by
  rw [validateLine, hm]

lemma validateLine_error_insufficient (db : DB) (line : OrderLine)
    (n : String) (need : Int) (u : String) (a : Int)
    (h : validateLine db line = .error (.insufficientInventory n need u a)) :
    ∃ r ∈ db.menuItemInventory.filter (fun x => x.menu_item_id == line.id), ∃ inv,
      db.inventoryItems.find? (fun it => it.id == r.inventory_item_id) = some inv ∧
      n = inv.name ∧ u = inv.unit ∧ a = inv.quantity ∧
      need = r.quantity_required * line.quantity ∧ inv.quantity < need := by
  cases hm : db.menuItems.find? (fun m => m.id == line.id) with
  | none =>
    rw [validateLine_eq_none db line hm] at h
    exact absurd h (by simp)
  | some m =>
    rw [validateLine_eq_some db line hm] at h
    by_cases ha : m.is_available = true
    · rw [if_pos ha] at h
      exact checkMappings_error_insufficient db line _ n need u a h
    · rw [if_neg ha] at h
      exact absurd h (by simp)

lemma validateLine_ok_or_insufficient (db : DB) (line : OrderLine)
    (hava : lineItemAvailable db line = true)
    (hb : ∀ r ∈ db.menuItemInventory, (db.inventoryItems.find?
      (fun it => it.id == r.inventory_item_id)).isSome = true) :
    validateLine db line = .ok () ∨
    ∃ n need u a, validateLine db line = .error (.insufficientInventory n need u a) := by
  rw [lineItemAvailable] at hava
  cases hm : db.menuItems.find? (fun m => m.id == line.id) with
  | none => rw [hm] at hava; exact absurd hava (by simp)
  | some m =>
    rw [hm] at hava
    rw [validateLine_eq_some db line hm, if_pos hava]
    exact checkMappings_ok_or_insufficient db line _
      (fun r hr => hb r (List.mem_filter.mp hr).1)

lemma validateLine_insufficient_of_exists (db : DB) (line : OrderLine)
    (hava : lineItemAvailable db line = true)
    (hb : ∀ r ∈ db.menuItemInventory, (db.inventoryItems.find?
      (fun it => it.id == r.inventory_item_id)).isSome = true)
    (hex : ∃ r ∈ db.menuItemInventory.filter (fun x => x.menu_item_id == line.id), ∃ inv,
      db.inventoryItems.find? (fun it => it.id == r.inventory_item_id) = some inv ∧
      inv.quantity < r.quantity_required * line.quantity) :
    ∃ n need u a, validateLine db line = .error (.insufficientInventory n need u a) := by
  rw [lineItemAvailable] at hava
  cases hm : db.menuItems.find? (fun m => m.id == line.id) with
  | none => rw [hm] at hava; exact absurd hava (by simp)
  | some m =>
    rw [hm] at hava
    rw [validateLine_eq_some db line hm, if_pos hava]
    exact checkMappings_insufficient_of_exists db line _
      (fun r hr => hb r (List.mem_filter.mp hr).1) hex

lemma validateItems_cons_error (db : DB) (l : OrderLine) (t : List OrderLine)
    {e : CreateOrderError} (hv : validateLine db l = .error e) :
    validateItems db (l :: t) = .error e := by
  rw [validateItems, hv]

lemma validateItems_cons_ok (db : DB) (l : OrderLine) (t : List OrderLine)
    (hv : validateLine db l = .ok ()) :
    validateItems db (l :: t) = validateItems db t := by
  rw [validateItems, hv]

lemma validateItems_error_insufficient (db : DB) (n : String) (need : Int)
    (u : String) (a : Int) :
    ∀ ls : List OrderLine,
      validateItems db ls = .error (.insufficientInventory n need u a) →
      ∃ line ∈ ls,
        validateLine db line = .error (.insufficientInventory n need u a) := by
  intro ls
  induction ls with
  | nil => intro h; exact absurd h (by simp [validateItems])
  | cons l t ih =>
    intro h
    cases hv : validateLine db l with
    | error e =>
      rw [validateItems_cons_error db l t hv] at h
      simp only [Except.error.injEq] at h
      exact ⟨l, List.mem_cons_self l t, by rw [hv, h]⟩
    | ok u' =>
      cases u'
      rw [validateItems_cons_ok db l t hv] at h
      rcases ih h with ⟨line, hline, hres⟩
      exact ⟨line, List.mem_cons_of_mem _ hline, hres⟩

lemma validateItems_insufficient_of_exists (db : DB) :
    ∀ ls : List OrderLine,
      (∀ l ∈ ls, lineItemAvailable db l = true) →
      (∀ r ∈ db.menuItemInventory, (db.inventoryItems.find?
        (fun it => it.id == r.inventory_item_id)).isSome = true) →
      (∃ line ∈ ls,
        ∃ r ∈ db.menuItemInventory.filter (fun x => x.menu_item_id == line.id), ∃ inv,
          db.inventoryItems.find? (fun it => it.id == r.inventory_item_id) = some inv ∧
          inv.quantity < r.quantity_required * line.quantity) →
      ∃ n need u a,
        validateItems db ls = .error (.insufficientInventory n need u a) := by
  intro ls
  induction ls with
  | nil => rintro _ _ ⟨line, hline, -⟩; exact absurd hline (by simp)
  | cons l t ih =>
    rintro hava hb ⟨line, hline, hex⟩
    cases hv : validateLine db l with
    | error e =>
      rcases validateLine_ok_or_insufficient db l (hava l (List.mem_cons_self l t)) hb with
        hok | ⟨n, need, u, a, herr⟩
      · rw [hv] at hok; exact absurd hok (by simp)
      · exact ⟨n, need, u, a, validateItems_cons_error db l t herr⟩
    | ok u' =>
      cases u'
      rw [validateItems_cons_ok db l t hv]
      rcases List.mem_cons.mp hline with rfl | hmem
      · rcases validateLine_insufficient_of_exists db line
          (hava line (List.mem_cons_self line t)) hb hex with ⟨n, need, u, a, herr⟩
        rw [hv] at herr
        exact absurd herr (by simp)
      · exact ih (fun x hx => hava x (List.mem_cons_of_mem _ hx)) hb ⟨line, hmem, hex⟩

lemma createOrder_empty (db : DB) (req : OrderRequest) (nid : Nat) (flag : Bool)
    (he : req.items.isEmpty = true) :
    createOrder db req nid flag = (.error .emptyCart, db) := by
  rw [createOrder]
  simp [he]

lemma createOrder_validation_error (db : DB) (req : OrderRequest) (nid : Nat)
    (flag : Bool) {e : CreateOrderError} (he : req.items.isEmpty = false)
    (hv : validateItems db req.items = .error e) :
    createOrder db req nid flag = (.error e, db) := by
  rw [createOrder]
  simp [he, hv]

lemma createOrder_ok_shape (db : DB) (req : OrderRequest) (nid : Nat)
    (he : req.items.isEmpty = false) (hv : validateItems db req.items = .ok ()) :
    createOrder db req nid false = (.ok nid,
      { db with orders := db.orders ++ [mkNewOrder req nid]
                orderItems := db.orderItems ++ mkNewOrderItems req nid }) := by
  rw [createOrder]
  simp [he, hv]

lemma createOrder_storage_shape (db : DB) (req : OrderRequest) (nid : Nat)
    (he : req.items.isEmpty = false) (hv : validateItems db req.items = .ok ()) :
    createOrder db req nid true = (.error .storageError,
      { db with orders := db.orders ++ [mkNewOrder req nid] }) := by
  rw [createOrder]
  simp [he, hv]

lemma createOrder_fst_error_insufficient (db : DB) (req : OrderRequest) (nid : Nat)
    (flag : Bool) (n : String) (need : Int) (u : String) (a : Int)
    (h : (createOrder db req nid flag).1 = .error (.insufficientInventory n need u a)) :
    validateItems db req.items = .error (.insufficientInventory n need u a) := by
  cases he : req.items.isEmpty
  · cases hv : validateItems db req.items with
    | error e =>
      rw [createOrder_validation_error db req nid flag he hv] at h
      simp only [Except.error.injEq] at h
      rw [h]
    | ok u' =>
      cases u'
      cases flag
      · rw [createOrder_ok_shape db req nid he hv] at h
        exact absurd h (by simp)
      · rw [createOrder_storage_shape db req nid he hv] at h
        exact absurd h (by simp)
  · rw [createOrder_empty db req nid flag he] at h
    exact absurd h (by simp)

/-- C6: with a non-empty cart whose lines all name existing, available menu
items and whose requirement rows all have inventory rows, `createOrder`
fails with `InsufficientInventory` — reporting the inventory item's name,
the required amount (`quantity_required * line.quantity`), the unit, and
the available amount — precisely when some line has a requirement whose
current inventory quantity is strictly below that line's requirement. -/
theorem insufficient_inventory_validation (db : DB) (req : OrderRequest)
    (nid : Nat) (flag : Bool)
    (hne : req.items.isEmpty = false)
    (hava : ∀ l ∈ req.items, lineItemAvailable db l = true)
    (hb : ∀ r ∈ db.menuItemInventory, (db.inventoryItems.find?
      (fun it => it.id == r.inventory_item_id)).isSome = true) :
    (∀ n need u a,
      (createOrder db req nid flag).1 = .error (.insufficientInventory n need u a) →
      ∃ line ∈ req.items,
        ∃ r ∈ db.menuItemInventory.filter (fun x => x.menu_item_id == line.id), ∃ inv,
          db.inventoryItems.find? (fun it => it.id == r.inventory_item_id) = some inv ∧
          n = inv.name ∧ u = inv.unit ∧ a = inv.quantity ∧
          need = r.quantity_required * line.quantity ∧ inv.quantity < need) ∧
    ((∃ line ∈ req.items,
        ∃ r ∈ db.menuItemInventory.filter (fun x => x.menu_item_id == line.id), ∃ inv,
          db.inventoryItems.find? (fun it => it.id == r.inventory_item_id) = some inv ∧
          inv.quantity < r.quantity_required * line.quantity) →
      ∃ n need u a,
        (createOrder db req nid flag).1 = .error (.insufficientInventory n need u a)) := by
  constructor
  · intro n need u a h
    rcases validateItems_error_insufficient db n need u a req.items
      (createOrder_fst_error_insufficient db req nid flag n need u a h) with
      ⟨line, hline, hres⟩
    exact ⟨line, hline, validateLine_error_insufficient db line n need u a hres⟩
  · intro hex
    rcases validateItems_insufficient_of_exists db req.items hava hb hex with
      ⟨n, need, u, a, herr⟩
    exact ⟨n, need, u, a, by
      rw [createOrder_validation_error db req nid flag hne herr]⟩

/-- Witness for C6 at Scenario A: with 0.50 lbs of Tomatoes and a 0.50
per-unit requirement, ordering one pizza succeeds (exactly enough) and
ordering two fails with `InsufficientInventory`. -/
theorem insufficient_inventory_validation_witness :
    (createOrder dbScenA reqScenA1 10 false).1 = .ok 10 ∧
    (∃ n need u a, (createOrder dbScenA reqScenA2 20 false).1 =
      .error (.insufficientInventory n need u a)) := by
  constructor
  · rfl
  · exact (insufficient_inventory_validation dbScenA reqScenA2 20 false
      (by decide) (by decide) (by decide)).2
      ⟨{ id := 1, name := "Margherita Pizza", quantity := 2, price := 1699 }, by decide,
        { id := 1, menu_item_id := 1, inventory_item_id := 1, quantity_required := 50 },
        by decide,
        { id := 1, name := "Tomatoes", quantity := 50, unit := "lbs", min_stock := 10 },
        by decide, by decide⟩

/-! ### Atomicity of order creation (C7), price snapshot (C9) -/

lemma checkMappings_ne_storage (db : DB) (line : OrderLine) :
    ∀ l : List RecipeRequirement, checkMappings db line l ≠ .error .storageError := by
  intro l
  induction l with
  | nil => simp [checkMappings]
  | cons r t ih =>
    cases hf : db.inventoryItems.find? (fun it => it.id == r.inventory_item_id) with
    | none => rw [checkMappings_cons_none db line r t hf]; simp
    | some inv =>
      rw [checkMappings_cons_some db line r t hf]
      by_cases hlt : inv.quantity < r.quantity_required * line.quantity
      · rw [if_pos hlt]; simp
      · rw [if_neg hlt]; exact ih

lemma validateLine_ne_storage (db : DB) (line : OrderLine) :
    validateLine db line ≠ .error .storageError := by
  cases hm : db.menuItems.find? (fun m => m.id == line.id) with
  | none => rw [validateLine_eq_none db line hm]; simp
  | some m =>
    rw [validateLine_eq_some db line hm]
    by_cases ha : m.is_available = true
    · rw [if_pos ha]; exact checkMappings_ne_storage db line _
    · rw [if_neg ha]; simp

lemma validateItems_ne_storage (db : DB) :
    ∀ ls : List OrderLine, validateItems db ls ≠ .error .storageError := by
  intro ls
  induction ls with
  | nil => simp [validateItems]
  | cons l t ih =>
    cases hv : validateLine db l with
    | error e =>
      rw [validateItems_cons_error db l t hv]
      intro h
      simp only [Except.error.injEq] at h
      rw [h] at hv
      exact validateLine_ne_storage db l hv
    | ok u' =>
      cases u'
      rw [validateItems_cons_ok db l t hv]
      exact ih

/-- C7 (amended): `createOrder` rejects invalid requests leaving the store
unchanged, and on the success path inserts the `orders` row first and the
`order_items` rows second, without a transaction: when the second insert
fails it reports a storage error but the order row stays persisted with no
order items. -/
theorem createOrder_two_phase (db : DB) (req : OrderRequest) (nid : Nat)
    (flag : Bool) :
    (∀ e, (createOrder db req nid flag).1 = .error e → e ≠ .storageError →
      (createOrder db req nid flag).2 = db) ∧
    (∀ n, (createOrder db req nid flag).1 = .ok n → n = nid ∧
      (createOrder db req nid flag).2 =
        { db with orders := db.orders ++ [mkNewOrder req nid]
                  orderItems := db.orderItems ++ mkNewOrderItems req nid }) ∧
    ((createOrder db req nid flag).1 = .error .storageError →
      (createOrder db req nid flag).2 =
        { db with orders := db.orders ++ [mkNewOrder req nid] }) := by
  cases he : req.items.isEmpty with
  | true =>
    rw [createOrder_empty db req nid flag he]
    exact ⟨fun e h _ => rfl, fun n h => absurd h (by simp), fun h => absurd h (by simp)⟩
  | false =>
    cases hv : validateItems db req.items with
    | error e0 =>
      rw [createOrder_validation_error db req nid flag he hv]
      refine ⟨fun e h _ => rfl, fun n h => absurd h (by simp), fun h => ?_⟩
      simp only [Except.error.injEq] at h
      rw [h] at hv
      exact absurd hv (validateItems_ne_storage db req.items)
    | ok u' =>
      cases u'
      cases flag with
      | false =>
        rw [createOrder_ok_shape db req nid he hv]
        refine ⟨fun e h _ => absurd h (by simp), fun n h => ⟨?_, rfl⟩,
          fun h => absurd h (by simp)⟩
        simpa using h.symm
      | true =>
        rw [createOrder_storage_shape db req nid he hv]
        exact ⟨fun e h hne => absurd (by simpa using h.symm) hne,
          fun n h => absurd h (by simp), fun _ => rfl⟩

/-- Witness for C7 (amended): a valid one-line order persists the order row
together with its order-item rows. -/
theorem createOrder_two_phase_witness :
    (createOrder dbScenA reqScenA1 10 false).2 =
      { dbScenA with orders := dbScenA.orders ++ [mkNewOrder reqScenA1 10]
                     orderItems := dbScenA.orderItems ++ mkNewOrderItems reqScenA1 10 } :=
  ((createOrder_two_phase dbScenA reqScenA1 10 false).2.1 10 (by rfl)).2

/-- C7 counterexample: when the `order_items` insert fails, the outcome is
neither "store unchanged" nor "order persisted with its order items" — the
order row alone remains. -/
theorem createOrder_atomic_counterexample :
    ¬ ((createOrder dbScenA reqScenA1 10 true).2 = dbScenA ∨
       ((∃ o ∈ (createOrder dbScenA reqScenA1 10 true).2.orders, o.id = 10) ∧
        (∃ oi ∈ (createOrder dbScenA reqScenA1 10 true).2.orderItems,
          oi.order_id = 10))) := by
  decide

/-- C9 (amended): on success, every persisted `order_items` row carries the
price supplied by the caller in the corresponding request line — not a
server-side snapshot of the catalog price. -/
theorem price_caller_supplied (db : DB) (req : OrderRequest) (nid : Nat) (n : Nat)
    (h : (createOrder db req nid false).1 = .ok n) :
    (createOrder db req nid false).2.orderItems =
      db.orderItems ++ req.items.map (fun l =>
        { id := 0, order_id := nid, menu_item_id := l.id,
          quantity := l.quantity, price := l.price }) := by
  cases he : req.items.isEmpty with
  | true =>
    rw [createOrder_empty db req nid false he] at h
    exact absurd h (by simp)
  | false =>
    cases hv : validateItems db req.items with
    | error e0 =>
      rw [createOrder_validation_error db req nid false he hv] at h
      exact absurd h (by simp)
    | ok u' =>
      cases u'
      rw [createOrder_ok_shape db req nid he hv]
      rfl

/-- Witness for C9 (amended): the persisted line price is the request's
7.00, not the catalog's 10.00. -/
theorem price_caller_supplied_witness :
    (createOrder dbPrice reqPrice 10 false).2.orderItems =
      dbPrice.orderItems ++ reqPrice.items.map (fun l =>
        { id := 0, order_id := 10, menu_item_id := l.id,
          quantity := l.quantity, price := l.price }) :=
  price_caller_supplied dbPrice reqPrice 10 10 (by rfl)

/-- C9 counterexample: the persisted price (7.00) differs from the menu
item's catalog price at order time (10.00). -/
theorem price_snapshot_counterexample :
    ¬ (∀ oi ∈ (createOrder dbPrice reqPrice 10 false).2.orderItems,
        oi.order_id = 10 →
        ∀ m ∈ dbPrice.menuItems, m.id = oi.menu_item_id → oi.price = m.price) := by
  decide

/-! ### Status transitions without a guard (C8) -/

lemma setOrderStatus_mem_updated {db : DB} {oid : Nat} (st : OrderStatus)
    (prep : Option Int) :
    ∀ o ∈ (setOrderStatus db oid st prep).orders, o.id = oid →
      ∃ o0, o = applyStatusUpdate st prep o0 := by
  cases hf : db.orders.find? (fun o => o.id == oid) with
  | none =>
    rw [setOrderStatus_none st prep hf]
    intro o ho hid
    have hnone := List.find?_eq_none.mp hf o ho
    exact absurd (by simpa using hid) (by simpa using hnone)
  | some old =>
    rw [setOrderStatus_orders_found st prep hf]
    intro o ho hid
    rcases List.mem_map.mp ho with ⟨o0, h0, rfl⟩
    by_cases hb : (o0.id == oid) = true
    · rw [if_pos hb]
      exact ⟨o0, rfl⟩
    · rw [if_neg (by simpa using hb)] at hid
      exact absurd (by simpa using hid) (by simpa using hb)

/-- C8 (amended): the admin `updateOrderStatus` applies the requested
transition unconditionally — after `approve(order, 15)` sets
status=approved and preparation_time=15, a subsequent `decline(order)`
sets the status to `declined`; no `InvalidTransition` rejection exists in
the update path (only the admin UI withholds the Decline button for
non-pending orders). -/
theorem decline_overrides_approve (db : DB) (oid : Nat) :
    (∀ o ∈ (setOrderStatus db oid .approved (some 15)).orders, o.id = oid →
      o.status = .approved ∧ o.preparation_time = some 15) ∧
    (∀ o ∈ (setOrderStatus (setOrderStatus db oid .approved (some 15)) oid
        .declined none).orders, o.id = oid → o.status = .declined) := by
  constructor
  · intro o ho hid
    rcases setOrderStatus_mem_updated .approved (some 15) o ho hid with ⟨o0, rfl⟩
    refine ⟨rfl, ?_⟩
    show (if OrderStatus.approved = OrderStatus.approved ∧ (15 : Int) ≠ 0 then
      some (15 : Int) else o0.preparation_time) = some 15
    rw [if_pos (by simp)]
  · intro o ho hid
    rcases setOrderStatus_mem_updated .declined none o ho hid with ⟨o0, rfl⟩
    rfl

/-- Witness for C8 (amended): on the store with one pending order, approve
then decline ends with the order declined. -/
theorem decline_overrides_approve_witness :
    ((setOrderStatus (setOrderStatus dbPending 1 .approved (some 15)) 1
        .declined none).orders.all
      (fun o => !(o.id == 1) || (o.status == .declined))) = true := by
  have h := (decline_overrides_approve dbPending 1).2
  rw [List.all_eq_true]
  intro o ho
  by_cases hid : o.id = 1
  · have hs := h o ho hid
    simp [hs]
  · simp [hid]

/-- C8 counterexample: after `approve(order, 15)`, the claim says a
`decline(order)` is rejected and the status stays `approved`; in fact the
status becomes `declined`. -/
theorem decline_after_approve_counterexample :
    ¬ (∀ o ∈ (setOrderStatus (setOrderStatus dbPending 1 .approved (some 15)) 1
          .declined none).orders, o.id = 1 → o.status = .approved) := by
  decide

/-! ### Per-line validation with no cross-line aggregation (C10) -/

/-- C10: two lines individually fitting the stock pass validation even
though their combined demand (1.20) exceeds the stock (1.00): the gate
checks each line against the full current inventory and never sums demand
across lines. -/
theorem per_line_validation_no_aggregation :
    (createOrder dbShared reqShared 50 false).1 = .ok 50 ∧
    lookupQuantity dbShared.inventoryItems 1 = some 100 ∧
    100 < orderDemand (createOrder dbShared reqShared 50 false).2 50 1 := by
  refine ⟨rfl, rfl, by decide⟩

end RestaurantApp
